import Mathlib

/-!
Verification of the Sui event module (`crates/sui-types/src/event.rs`).

The file embeds the event data model and its operations in Lean and proves
the documented properties about them.  Types and functions translated from
`event.rs` keep their source names.  The collaborators from the Move crates
(`move_core_types::language_storage`, `move_core_types::value`,
`move_bytecode_utils::layout`) are not part of this repository's sources;
they are modelled from the specification, as marked on each definition.
-/

/-- Opaque fixed-width object identifier (`ObjectID`); equality is byte-wise,
so a natural number models it adequately. -/
abbrev ObjectID := Nat

/-- Opaque sequence number (`SequenceNumber`). -/
abbrev SequenceNumber := Nat

/-- Opaque address (`SuiAddress`). -/
abbrev SuiAddress := Nat

/-- Opaque transaction digest (`TransactionDigest`). -/
abbrev TransactionDigest := Nat

/-- Opaque epoch identifier (`EpochId`). -/
abbrev EpochId := Nat

/-- Opaque checkpoint sequence number (`CheckpointSequenceNumber`). -/
abbrev CheckpointSequenceNumber := Nat

/-- Opaque account address component of module identifiers. -/
abbrev AccountAddress := Nat

/-- Opaque pre-rendered display value (`serde_json::Value`); the event module
never inspects it, so an opaque stand-in suffices. -/
abbrev JsonValue := String

mutual
/-- Modelled from the spec: `TypeTag` is "a recursive sum type over primitive
kinds (integers of fixed widths, boolean, address, vector-of-TypeTag) and
`Struct(StructTag)`" (`move_core_types::language_storage::TypeTag`). -/
inductive TypeTag where
  | bool
  | u8
  | u64
  | u128
  | address
  | signer
  | vector (t : TypeTag)
  | struct_ (s : StructTag)

/-- Modelled from the spec: `StructTag` is a "fully-qualified type name =
(module identifier, struct name, ordered list of type-parameter TypeTags)"
(`move_core_types::language_storage::StructTag`). -/
inductive StructTag where
  | mk (address : AccountAddress) (module : String) (name : String)
      (type_params : List TypeTag)
end

def StructTag.address : StructTag → AccountAddress
  | .mk a _ _ _ => a

def StructTag.module : StructTag → String
  | .mk _ m _ _ => m

def StructTag.name : StructTag → String
  | .mk _ _ n _ => n

def StructTag.type_params : StructTag → List TypeTag
  | .mk _ _ _ ps => ps

/-- Modelled from the spec: a module identifier, the lookup key handed to the
Module Resolver (`move_core_types::language_storage::ModuleId`). -/
structure ModuleId where
  address : AccountAddress
  name : String
  deriving DecidableEq

/-- Modelled from the spec: the defining module identifier of a `StructTag`,
"derived from the StructTag's module component"
(`StructTag::module_id` in `move_core_types`). -/
def StructTag.module_id (s : StructTag) : ModuleId :=
  ⟨s.address, s.module⟩

mutual
/-- Modelled from the spec: a resolved layout is "a tree whose leaves are
primitive-kind descriptors and whose internal nodes are (field name, nested
layout) pairs" (`move_core_types::value::MoveTypeLayout`). -/
inductive MoveTypeLayout where
  | bool
  | u8
  | u64
  | u128
  | address
  | signer
  | vector (l : MoveTypeLayout)
  | struct_ (s : MoveStructLayout)

/-- Modelled from the spec: the struct form of a resolved layout.  The two
resolution modes "differ in whether struct-typed nodes also retain their
originating StructTag" (`move_core_types::value::MoveStructLayout`:
`Runtime`, `WithFields`, `WithTypes`). -/
inductive MoveStructLayout where
  | runtime (fields : List MoveTypeLayout)
  | withFields (fields : List (String × MoveTypeLayout))
  | withTypes (type_ : StructTag) (fields : List (String × MoveTypeLayout))
end

mutual
/-- Modelled from the spec: a decoded value is "a tree of (field name → value)
in the same shape as the Resolved Layout; leaf values carry their primitive
kind and raw value" (`move_core_types::value::MoveValue`). -/
inductive MoveValue where
  | u8 (n : Nat)
  | u64 (n : Nat)
  | u128 (n : Nat)
  | bool (b : Bool)
  | address (a : AccountAddress)
  | signer (a : AccountAddress)
  | vector (elems : List MoveValue)
  | struct_ (s : MoveStruct)

/-- Modelled from the spec: the struct form of a decoded value, mirroring the
three struct-layout forms (`move_core_types::value::MoveStruct`). -/
inductive MoveStruct where
  | runtime (fields : List MoveValue)
  | withFields (fields : List (String × MoveValue))
  | withTypes (type_ : StructTag) (fields : List (String × MoveValue))
end

/-- Error type `SuiError` as used by `event.rs`: every serialization failure is the
`ObjectSerializationError` variant carrying a human-readable cause string.
The `unreachablePanic` constructor is a modelling device for the Rust
`unreachable!` macro in `get_layout` and `extract_move_struct`: it represents
a panic, not a returned error, and the development proves that the branches
producing it are never taken. -/
inductive SuiError where
  | objectSerializationError (error : String)
  | unreachablePanic (msg : String)
  deriving DecidableEq

/-- Options type `ObjectFormatOptions` (from `crates/sui-types/src/object.rs`): "a single
boolean-equivalent option, `include_types`, selecting FieldsOnly vs
FieldsAndTypes layout mode; no other recognized options". -/
structure ObjectFormatOptions where
  include_types : Bool

/-- Little-endian, fixed-width byte encoding of a natural number (`k` bytes),
the wire form of the fixed-width integer and address primitives. -/
def natLE : Nat → Nat → List Nat
  | 0, _ => []
  | k + 1, n => n % 256 :: natLE k (n / 256)

/-- ULEB128 encoding, fuelled so that it is structurally recursive; fuel `f ≥ n`
always suffices. -/
def ulebAux : Nat → Nat → List Nat
  | 0, n => [n]
  | f + 1, n => if n < 128 then [n] else (n % 128 + 128) :: ulebAux f (n / 128)

/-- Modelled from the spec: the length prefix of "length-prefixed"
variable-length vectors (ULEB128, as in the BCS wire format used by
`move_core_types`). -/
def ulebEncode (n : Nat) : List Nat :=
  ulebAux n n

/-- Read `k` little-endian bytes as a natural number. -/
def parseNatLE : Nat → List Nat → Option (Nat × List Nat)
  | 0, b => some (0, b)
  | _ + 1, [] => none
  | k + 1, x :: rest =>
    match parseNatLE k rest with
    | none => none
    | some (n, r) => some (x + 256 * n, r)

/-- Read a ULEB128-encoded length prefix. -/
def readUleb : List Nat → Option (Nat × List Nat)
  | [] => none
  | b :: rest =>
    if b < 128 then some (b, rest)
    else
      match readUleb rest with
      | some (n, r) => some (b - 128 + 128 * n, r)
      | none => none

mutual
/-- Modelled from the spec: the encoding a well-formed `contents` byte
sequence is produced by — "fixed-width primitives consume their fixed byte
count; variable-length vectors are length-prefixed; nested structs consume
exactly the bytes implied by their own layout, no padding"
(BCS serialization of `move_core_types::value::MoveValue`). -/
def serializeValue : MoveValue → List Nat
  | .u8 n => [n]
  | .u64 n => natLE 8 n
  | .u128 n => natLE 16 n
  | .bool b => [if b then 1 else 0]
  | .address a => natLE 16 a
  | .signer a => natLE 16 a
  | .vector vs => ulebEncode vs.length ++ serializeValueList vs
  | .struct_ s => serializeStruct s

/-- Concatenated encodings of a list of values. -/
def serializeValueList : List MoveValue → List Nat
  | [] => []
  | v :: vs => serializeValue v ++ serializeValueList vs

/-- Modelled from the spec: struct values encode as the concatenation of their
field values in declaration order; field names and retained type tags do not
appear on the wire (BCS serialization of `MoveStruct`). -/
def serializeStruct : MoveStruct → List Nat
  | .runtime vs => serializeValueList vs
  | .withFields fs => serializeFieldList fs
  | .withTypes _ fs => serializeFieldList fs

/-- Concatenated encodings of named fields (names are not serialized). -/
def serializeFieldList : List (String × MoveValue) → List Nat
  | [] => []
  | (_, v) :: fs => serializeValue v ++ serializeFieldList fs
end

/-- Run a value parser `n` times in sequence (vector elements). -/
def parseRep (p : List Nat → Option (MoveValue × List Nat)) :
    Nat → List Nat → Option (List MoveValue × List Nat)
  | 0, b => some ([], b)
  | n + 1, b =>
    match p b with
    | none => none
    | some (v, r) =>
      match parseRep p n r with
      | none => none
      | some (vs, r2) => some (v :: vs, r2)

mutual
/-- Modelled from the spec: the Struct Decoder — "deserialize contents against
layout depth-first in field-declaration order using a length-implicit binary
encoding"; "the decoder is purely a function of (contents, layout)"
(deserialization seeded by a `MoveTypeLayout` in `move_core_types`).
Returns the decoded value and the unconsumed remainder of the input. -/
def parseValue : MoveTypeLayout → List Nat → Option (MoveValue × List Nat)
  | .bool, b =>
    match b with
    | 0 :: r => some (.bool false, r)
    | 1 :: r => some (.bool true, r)
    | _ => none
  | .u8, b =>
    match b with
    | x :: r => some (.u8 x, r)
    | [] => none
  | .u64, b => (parseNatLE 8 b).map fun p => (.u64 p.1, p.2)
  | .u128, b => (parseNatLE 16 b).map fun p => (.u128 p.1, p.2)
  | .address, b => (parseNatLE 16 b).map fun p => (.address p.1, p.2)
  | .signer, b => (parseNatLE 16 b).map fun p => (.signer p.1, p.2)
  | .vector l, b =>
    match readUleb b with
    | none => none
    | some (n, r) =>
      match parseRep (parseValue l) n r with
      | none => none
      | some (vs, r2) => some (.vector vs, r2)
  | .struct_ s, b =>
    match parseStruct s b with
    | none => none
    | some (v, r) => some (.struct_ v, r)

/-- Decode a struct against a struct layout: fields are decoded depth-first in
declaration order; the result takes its field names (and retained type tag)
from the layout. -/
def parseStruct : MoveStructLayout → List Nat → Option (MoveStruct × List Nat)
  | .runtime fs, b =>
    match parseValueSeq fs b with
    | none => none
    | some (vs, r) => some (.runtime vs, r)
  | .withFields fs, b =>
    match parseFieldSeq fs b with
    | none => none
    | some (vs, r) => some (.withFields vs, r)
  | .withTypes t fs, b =>
    match parseFieldSeq fs b with
    | none => none
    | some (vs, r) => some (.withTypes t vs, r)

/-- Decode a sequence of unnamed field layouts. -/
def parseValueSeq : List MoveTypeLayout → List Nat → Option (List MoveValue × List Nat)
  | [], b => some ([], b)
  | l :: ls, b =>
    match parseValue l b with
    | none => none
    | some (v, r) =>
      match parseValueSeq ls r with
      | none => none
      | some (vs, r2) => some (v :: vs, r2)

/-- Decode a sequence of named field layouts. -/
def parseFieldSeq : List (String × MoveTypeLayout) → List Nat →
    Option (List (String × MoveValue) × List Nat)
  | [], b => some ([], b)
  | (n, l) :: fs, b =>
    match parseValue l b with
    | none => none
    | some (v, r) =>
      match parseFieldSeq fs r with
      | none => none
      | some (vs, r2) => some ((n, v) :: vs, r2)
end

/-- Modelled from the spec: `MoveStruct::simple_deserialize(blob, ty)` — decode
`blob` against `ty`; "truncated or malformed input (insufficient bytes, ...,
trailing unconsumed bytes for a tightly-packed encoding) surfaces as a single
uniform decode error; no partial structures are returned". -/
def MoveStruct.simple_deserialize (blob : List Nat) (ty : MoveStructLayout) :
    Except String MoveStruct :=
  match parseStruct ty blob with
  | some (s, []) => .ok s
  | some (_, _ :: _) => .error "remaining input after deserialization"
  | none => .error "invalid or truncated input"

/-- Modelled from the spec: the declared type of a struct field as written in
a compiled module — primitives, vectors, formal type parameters (by index),
and struct applications whose arguments may themselves mention type
parameters (`move_binary_format` signature tokens). -/
inductive SigTok where
  | bool
  | u8
  | u64
  | u128
  | address
  | signer
  | vector (t : SigTok)
  | typeParam (i : Nat)
  | structApp (address : AccountAddress) (module : String) (name : String)
      (args : List SigTok)

/-- Modelled from the spec: a struct definition inside a compiled module — its
declared fields, in declaration order. -/
structure StructDef where
  fields : List (String × SigTok)

/-- Modelled from the spec: "a unit of deployed contract code defining one or
more struct types and their field layouts", looked up by struct name. -/
structure CompiledModule where
  structs : List (String × StructDef)

/-- Modelled from the spec: the Module Resolver capability,
"`get_module(module_id) -> Option<CompiledModuleDescriptor>`"
(the `GetModule` trait of `move_bytecode_utils::module_cache`). -/
def GetModule := ModuleId → Option CompiledModule

/-- Look up a struct definition by name in a module. -/
def findStruct : List (String × StructDef) → String → Option StructDef
  | [], _ => none
  | (n, d) :: rest, name => if n = name then some d else findStruct rest name

mutual
/-- Modelled from the spec: substitution of "generic type parameters ... with
the concrete TypeTags supplied in the outer StructTag"; fails if a parameter
index is out of range. -/
def substSig (params : List TypeTag) : SigTok → Option TypeTag
  | .bool => some .bool
  | .u8 => some .u8
  | .u64 => some .u64
  | .u128 => some .u128
  | .address => some .address
  | .signer => some .signer
  | .vector t =>
    match substSig params t with
    | none => none
    | some t' => some (.vector t')
  | .typeParam i => params[i]?
  | .structApp a m n args =>
    match substSigList params args with
    | none => none
    | some args' => some (.struct_ (.mk a m n args'))

/-- Substitute a list of signature tokens. -/
def substSigList (params : List TypeTag) : List SigTok → Option (List TypeTag)
  | [] => some []
  | t :: ts =>
    match substSig params t with
    | none => none
    | some t' =>
      match substSigList params ts with
      | none => none
      | some ts' => some (t' :: ts')
end

/-- Failure causes of layout resolution; rendered to the human-readable cause
string carried by the serialization error. -/
inductive LayoutError where
  | moduleNotFound (m : ModuleId)
  | structNotFound (name : String)
  | typeParamOutOfRange
  | depthExhausted
  deriving DecidableEq

/-- Render a layout-resolution failure as a human-readable cause string
(the `e.to_string()` applied to builder errors in `event.rs`). -/
def LayoutError.render : LayoutError → String
  | .moduleNotFound m => "unable to load module " ++ toString m.address ++ "::" ++ m.name
  | .structNotFound n => "no struct named " ++ n ++ " in module"
  | .typeParamOutOfRange => "type parameter index out of range"
  | .depthExhausted => "maximum recursion depth exceeded"

mutual
/-- Modelled from the spec: the Layout Builder on a type tag — "recursively
expand `type_tag` ...; primitives map directly to layout leaves; nested
struct types recurse (same algorithm, same mode)".  `withTypes` selects
FieldsAndTypes mode.  `fuel` is a modelling device bounding recursion depth;
the source relies on the acyclicity invariant instead and has no bound. -/
def buildTypeLayout (fuel : Nat) (withTypes : Bool) (resolver : GetModule) :
    TypeTag → Except LayoutError MoveTypeLayout
  | .bool => .ok .bool
  | .u8 => .ok .u8
  | .u64 => .ok .u64
  | .u128 => .ok .u128
  | .address => .ok .address
  | .signer => .ok .signer
  | .vector t =>
    match fuel with
    | 0 => .error .depthExhausted
    | f + 1 =>
      match buildTypeLayout f withTypes resolver t with
      | .error e => .error e
      | .ok l => .ok (.vector l)
  | .struct_ s =>
    match fuel with
    | 0 => .error .depthExhausted
    | f + 1 =>
      match buildStructLayout f withTypes resolver s with
      | .error e => .error e
      | .ok l => .ok (.struct_ l)

/-- Modelled from the spec: the Layout Builder on a struct tag — "look up its
defining module via the resolver; if absent, fail with a resolution error";
then resolve every declared field under the tag's type-parameter
substitution.  "FieldsAndTypes mode additionally retains the originating
StructTag at every struct-typed node ...; FieldsOnly mode discards it"; "no
partial layouts are returned". -/
def buildStructLayout (fuel : Nat) (withTypes : Bool) (resolver : GetModule)
    (tag : StructTag) : Except LayoutError MoveStructLayout :=
  match resolver tag.module_id with
  | none => .error (.moduleNotFound tag.module_id)
  | some m =>
    match findStruct m.structs tag.name with
    | none => .error (.structNotFound tag.name)
    | some sd =>
      match fuel with
      | 0 => .error .depthExhausted
      | f + 1 =>
        match buildFieldLayouts f withTypes resolver tag.type_params sd.fields with
        | .error e => .error e
        | .ok fs =>
          .ok (if withTypes then .withTypes tag fs else .withFields fs)

/-- Resolve the declared fields of a struct definition, substituting the
concrete type parameters before recursing. -/
def buildFieldLayouts (fuel : Nat) (withTypes : Bool) (resolver : GetModule)
    (params : List TypeTag) :
    List (String × SigTok) → Except LayoutError (List (String × MoveTypeLayout))
  | [] => .ok []
  | (n, tok) :: rest =>
    match substSig params tok with
    | none => .error .typeParamOutOfRange
    | some t =>
      match fuel with
      | 0 => .error .depthExhausted
      | f + 1 =>
        match buildTypeLayout f withTypes resolver t with
        | .error e => .error e
        | .ok l =>
          match buildFieldLayouts f withTypes resolver params rest with
          | .error e => .error e
          | .ok ls => .ok ((n, l) :: ls)
end

/-- Modelled from the spec: `TypeLayoutBuilder::build_with_types` — layout
resolution in FieldsAndTypes mode. -/
def TypeLayoutBuilder.build_with_types (fuel : Nat) (t : TypeTag)
    (resolver : GetModule) : Except LayoutError MoveTypeLayout :=
  buildTypeLayout fuel true resolver t

/-- Modelled from the spec: `TypeLayoutBuilder::build_with_fields` — layout
resolution in FieldsOnly mode. -/
def TypeLayoutBuilder.build_with_fields (fuel : Nat) (t : TypeTag)
    (resolver : GetModule) : Except LayoutError MoveTypeLayout :=
  buildTypeLayout fuel false resolver t

/-- Enum `TransferType` from `event.rs`. -/
inductive TransferType where
  | Coin
  | ToAddress
  | ToObject
  deriving DecidableEq

/-- Struct `MoveEvent` from `event.rs`: an opaque type tag plus undecoded bytes. -/
structure MoveEvent where
  type_ : StructTag
  contents : List Nat

/-- Enum `Event` from `event.rs`: the closed tagged union of event kinds. -/
inductive Event where
  | MoveEvent (event : MoveEvent)
  | Publish (package_id : ObjectID)
  | TransferObject (object_id : ObjectID) (version : SequenceNumber)
      (destination_addr : SuiAddress) (type_ : TransferType)
  | DeleteObject (obj_id : ObjectID)
  | NewObject (obj_id : ObjectID)
  | EpochChange (epoch : EpochId)
  | Checkpoint (seq : CheckpointSequenceNumber)

/-- Enum `EventType` from `event.rs`: the payload-free discriminant enum generated
by `EnumDiscriminants` on `Event`. -/
inductive EventType where
  | MoveEvent
  | Publish
  | TransferObject
  | DeleteObject
  | NewObject
  | EpochChange
  | Checkpoint
  deriving DecidableEq

/-- The `From<&Event> for EventType` conversion generated by
`EnumDiscriminants`: the discriminant of the variant, ignoring its payload. -/
def Event.toEventType : Event → EventType
  | .MoveEvent _ => .MoveEvent
  | .Publish _ => .Publish
  | .TransferObject _ _ _ _ => .TransferObject
  | .DeleteObject _ => .DeleteObject
  | .NewObject _ => .NewObject
  | .EpochChange _ => .EpochChange
  | .Checkpoint _ => .Checkpoint

/-- Method `variant_name` generated by the `NamedVariant` derive on `Event`: the
static name of the variant, ignoring its payload. -/
def Event.variant_name : Event → String
  | .MoveEvent _ => "MoveEvent"
  | .Publish _ => "Publish"
  | .TransferObject _ _ _ _ => "TransferObject"
  | .DeleteObject _ => "DeleteObject"
  | .NewObject _ => "NewObject"
  | .EpochChange _ => "EpochChange"
  | .Checkpoint _ => "Checkpoint"

/-- Constructor helper `Event::move_event` from `event.rs`. -/
def Event.move_event (type_ : StructTag) (contents : List Nat) : Event :=
  .MoveEvent ⟨type_, contents⟩

/-- Method `Event::event_type` from `event.rs`: `self.into()`. -/
def Event.event_type (e : Event) : EventType :=
  e.toEventType

/-- Method `Event::object_id` from `event.rs`. -/
def Event.object_id : Event → Option ObjectID
  | .Publish package_id => some package_id
  | .TransferObject object_id _ _ _ => some object_id
  | .DeleteObject obj_id => some obj_id
  | .NewObject obj_id => some obj_id
  | _ => none

/-- Method `Event::module_id` from `event.rs`. -/
def Event.module_id : Event → Option ModuleId
  | .MoveEvent event => some event.type_.module_id
  | _ => none

/-- Struct `EventEnvelope` from `event.rs`. -/
structure EventEnvelope where
  timestamp : Nat
  tx_digest : Option TransactionDigest
  event : Event
  move_struct_json_value : Option JsonValue

/-- Constructor `EventEnvelope::new` from `event.rs`. -/
def EventEnvelope.new (timestamp : Nat) (tx_digest : Option TransactionDigest)
    (event : Event) (move_struct_json_value : Option JsonValue) : EventEnvelope :=
  ⟨timestamp, tx_digest, event, move_struct_json_value⟩

/-- Method `EventEnvelope::event_type` from `event.rs`: `self.event.variant_name()`. -/
def EventEnvelope.event_type (env : EventEnvelope) : String :=
  env.event.variant_name

/-- Method `Event::extract_move_struct` from `event.rs`.  `fuel` parameterizes the
modelled layout builder. -/
def Event.extract_move_struct (e : Event) (resolver : GetModule) (fuel : Nat) :
    Except SuiError (Option MoveStruct) :=
  match e with
  | .MoveEvent event =>
    let typestruct := TypeTag.struct_ event.type_
    match TypeLayoutBuilder.build_with_fields fuel typestruct resolver with
    | .error e => .error (.objectSerializationError e.render)
    | .ok layout =>
      match layout with
      | .struct_ l =>
        match MoveStruct.simple_deserialize event.contents l with
        | .error e => .error (.objectSerializationError e)
        | .ok s => .ok (some s)
      | _ =>
        .error (.unreachablePanic
          "We called build_with_types on Struct type, should get a struct layout")
  | _ => .ok none

/-- Method `MoveEvent::get_layout` from `event.rs`.  `fuel` parameterizes the
modelled layout builder. -/
def MoveEvent.get_layout (me : MoveEvent) (format : ObjectFormatOptions)
    (resolver : GetModule) (fuel : Nat) : Except SuiError MoveStructLayout :=
  let type_ := TypeTag.struct_ me.type_
  let layout :=
    if format.include_types then
      TypeLayoutBuilder.build_with_types fuel type_ resolver
    else
      TypeLayoutBuilder.build_with_fields fuel type_ resolver
  match layout with
  | .error e => .error (.objectSerializationError e.render)
  | .ok (.struct_ l) => .ok l
  | .ok _ =>
    .error (.unreachablePanic
      "We called build_with_types on Struct type, should get a struct layout")

/-- Method `MoveEvent::to_move_struct` from `event.rs`. -/
def MoveEvent.to_move_struct (me : MoveEvent) (layout : MoveStructLayout) :
    Except SuiError MoveStruct :=
  match MoveStruct.simple_deserialize me.contents layout with
  | .error e => .error (.objectSerializationError e)
  | .ok s => .ok s

/-- Method `MoveEvent::to_move_struct_with_resolver` from `event.rs`:
`self.to_move_struct(&self.get_layout(format, resolver)?)`. -/
def MoveEvent.to_move_struct_with_resolver (me : MoveEvent)
    (format : ObjectFormatOptions) (resolver : GetModule) (fuel : Nat) :
    Except SuiError MoveStruct :=
  match me.get_layout format resolver fuel with
  | .error e => .error e
  | .ok layout => me.to_move_struct layout

mutual
/-- Value `v` is a well-formed inhabitant of layout `l`: primitive leaves are
in range for their fixed width, vectors are element-wise conformant, and
struct values have the shape, field names and retained tag of the layout. -/
def confValue : MoveValue → MoveTypeLayout → Prop
  | .u8 n, .u8 => n < 256
  | .u64 n, .u64 => n < 2 ^ 64
  | .u128 n, .u128 => n < 2 ^ 128
  | .bool _, .bool => True
  | .address a, .address => a < 2 ^ 128
  | .signer a, .signer => a < 2 ^ 128
  | .vector vs, .vector l => confValueList vs l
  | .struct_ s, .struct_ sl => confStruct s sl
  | _, _ => False

/-- All elements of a vector conform to the element layout. -/
def confValueList : List MoveValue → MoveTypeLayout → Prop
  | [], _ => True
  | v :: vs, l => confValue v l ∧ confValueList vs l

/-- A struct value conforms to a struct layout. -/
def confStruct : MoveStruct → MoveStructLayout → Prop
  | .runtime vs, .runtime ls => confValueSeq vs ls
  | .withFields fvs, .withFields fls => confFieldSeq fvs fls
  | .withTypes t fvs, .withTypes t' fls => t = t' ∧ confFieldSeq fvs fls
  | _, _ => False

/-- Positional fields conform pointwise. -/
def confValueSeq : List MoveValue → List MoveTypeLayout → Prop
  | [], [] => True
  | v :: vs, l :: ls => confValue v l ∧ confValueSeq vs ls
  | _, _ => False

/-- Named fields conform pointwise, names included. -/
def confFieldSeq : List (String × MoveValue) → List (String × MoveTypeLayout) → Prop
  | [], [] => True
  | (n, v) :: fvs, (n', l) :: fls => n = n' ∧ confValue v l ∧ confFieldSeq fvs fls
  | _, _ => False
end

mutual
/-- Every struct node of the layout retains its originating `StructTag`
(i.e. is a `withTypes` node) — the FieldsAndTypes shape. -/
def typedLayout : MoveTypeLayout → Prop
  | .vector l => typedLayout l
  | .struct_ s => typedStructLayout s
  | _ => True

/-- The struct layout retains its `StructTag`, and so do all nested struct
nodes. -/
def typedStructLayout : MoveStructLayout → Prop
  | .withTypes _ fs => typedFieldList fs
  | _ => False

/-- All named field layouts are fully type-annotated. -/
def typedFieldList : List (String × MoveTypeLayout) → Prop
  | [] => True
  | (_, l) :: fs => typedLayout l ∧ typedFieldList fs
end

mutual
/-- No node of the layout exposes a `StructTag` — the FieldsOnly shape. -/
def taglessLayout : MoveTypeLayout → Prop
  | .vector l => taglessLayout l
  | .struct_ s => taglessStructLayout s
  | _ => True

/-- The struct layout carries no `StructTag`, nor does any nested node. -/
def taglessStructLayout : MoveStructLayout → Prop
  | .runtime ls => taglessLayoutList ls
  | .withFields fs => taglessFieldList fs
  | .withTypes _ _ => False

/-- All positional field layouts are tag-free. -/
def taglessLayoutList : List MoveTypeLayout → Prop
  | [] => True
  | l :: ls => taglessLayout l ∧ taglessLayoutList ls

/-- All named field layouts are tag-free. -/
def taglessFieldList : List (String × MoveTypeLayout) → Prop
  | [] => True
  | (_, l) :: fs => taglessLayout l ∧ taglessFieldList fs
end

/-- Reading `k` little-endian bytes only inspects the consumed prefix, so any
extension of the input parses to the same result with the extension left
over. -/
theorem parseNatLE_ext :
    ∀ (k : Nat) (b : List Nat) (n : Nat) (r ext : List Nat),
      parseNatLE k b = some (n, r) →
      parseNatLE k (b ++ ext) = some (n, r ++ ext) := by
  intro k
  induction k with
  | zero =>
    intro b n r ext h
    simp [parseNatLE] at h ⊢
    exact ⟨h.1, by rw [h.2]⟩
  | succ k ih =>
    intro b n r ext h
    cases b with
    | nil => simp [parseNatLE] at h
    | cons x rest =>
      simp only [List.cons_append, parseNatLE] at h ⊢
      cases hrec : parseNatLE k rest with
      | none => rw [hrec] at h; simp at h
      | some p =>
        obtain ⟨m, r0⟩ := p
        rw [hrec] at h
        simp at h
        have hext := ih rest m r0 ext hrec
        simp only [List.append_eq] at hext ⊢
        rw [hext]
        simp [h.1, h.2]

/-- Reading a ULEB128 length only inspects the consumed prefix. -/
theorem readUleb_ext :
    ∀ (b : List Nat) (n : Nat) (r ext : List Nat),
      readUleb b = some (n, r) →
      readUleb (b ++ ext) = some (n, r ++ ext) := by
  intro b
  induction b with
  | nil => intro n r ext h; simp [readUleb] at h
  | cons x rest ih =>
    intro n r ext h
    simp only [readUleb] at h ⊢
    by_cases hx : x < 128
    · simp [hx] at h ⊢
      exact ⟨h.1, by rw [h.2]⟩
    · simp [hx] at h ⊢
      cases hrec : readUleb rest with
      | none => rw [hrec] at h; simp at h
      | some p =>
        obtain ⟨m, r0⟩ := p
        rw [hrec] at h
        simp at h
        rw [ih m r0 ext hrec]
        simp [← h.1, h.2]

/-- Repeating a parser that only inspects its consumed prefix again only
inspects the consumed prefix. -/
theorem parseRep_ext (p : List Nat → Option (MoveValue × List Nat))
    (hp : ∀ b v r ext, p b = some (v, r) → p (b ++ ext) = some (v, r ++ ext)) :
    ∀ (n : Nat) (b : List Nat) (vs : List MoveValue) (r ext : List Nat),
      parseRep p n b = some (vs, r) →
      parseRep p n (b ++ ext) = some (vs, r ++ ext) := by
  intro n
  induction n with
  | zero =>
    intro b vs r ext h
    simp [parseRep] at h ⊢
    exact ⟨h.1, by rw [h.2]⟩
  | succ n ih =>
    intro b vs r ext h
    simp only [parseRep] at h ⊢
    cases hv : p b with
    | none => rw [hv] at h; simp at h
    | some q =>
      obtain ⟨v, r0⟩ := q
      rw [hv] at h
      dsimp only at h
      cases hrec : parseRep p n r0 with
      | none => rw [hrec] at h; simp at h
      | some q2 =>
        obtain ⟨vs0, r2⟩ := q2
        rw [hrec] at h
        simp at h
        rw [hp b v r0 ext hv]
        dsimp only
        rw [ih r0 vs0 r2 ext hrec]
        simp [← h.1, h.2]

/-- Little-endian fixed-width encoding round-trips for in-range values, with
any extension of the input left over. -/
theorem parseNatLE_natLE :
    ∀ (k n : Nat) (ext : List Nat), n < 256 ^ k →
      parseNatLE k (natLE k n ++ ext) = some (n, ext) := by
  intro k
  induction k with
  | zero =>
    intro n ext h
    simp [pow_zero] at h
    simp [natLE, parseNatLE, h]
  | succ k ih =>
    intro n ext h
    have hdiv : n / 256 < 256 ^ k := by
      rw [Nat.div_lt_iff_lt_mul (by norm_num : 0 < 256)]
      calc n < 256 ^ (k + 1) := h
        _ = 256 ^ k * 256 := by ring
    simp only [natLE, parseNatLE, List.cons_append]
    have hext := ih (n / 256) ext hdiv
    simp only [List.append_eq] at hext ⊢
    rw [hext]
    simp [Nat.mod_add_div]

/-- ULEB128 encoding round-trips, with any extension of the input left
over; fuel at least `n` suffices. -/
theorem readUleb_ulebAux :
    ∀ (f n : Nat) (ext : List Nat), n ≤ f →
      readUleb (ulebAux f n ++ ext) = some (n, ext) := by
  intro f
  induction f with
  | zero =>
    intro n ext h
    interval_cases n
    simp [ulebAux, readUleb]
  | succ f ih =>
    intro n ext h
    by_cases hn : n < 128
    · simp [ulebAux, hn, readUleb]
    · have h128 : 128 ≤ n := Nat.le_of_not_lt hn
      have hdivle : n / 128 ≤ f := by
        have : n / 128 < n := Nat.div_lt_self (by omega) (by norm_num)
        omega
      simp only [ulebAux, if_neg hn, List.cons_append]
      rw [readUleb]
      have : ¬ (n % 128 + 128 < 128) := by omega
      simp only [this, if_neg (by omega : ¬ (n % 128 + 128 < 128))]
      rw [ih (n / 128) ext hdivle]
      dsimp only
      simp only [Nat.add_sub_cancel]
      have hmod : n % 128 + 128 * (n / 128) = n := by omega
      rw [hmod]
      simp

/-- The ULEB128 length prefix written by the encoder reads back exactly. -/
theorem readUleb_ulebEncode (n : Nat) (ext : List Nat) :
    readUleb (ulebEncode n ++ ext) = some (n, ext) :=
  readUleb_ulebAux n n ext le_rfl

mutual
theorem parseValue_ext (l : MoveTypeLayout) :
    ∀ b v r ext, parseValue l b = some (v, r) →
      parseValue l (b ++ ext) = some (v, r ++ ext) := by
  cases l with
  | bool =>
    intro b v r ext h
    match b with
    | [] => simp [parseValue] at h
    | 0 :: rest =>
      simp [parseValue] at h ⊢
      exact ⟨h.1, by rw [h.2]⟩
    | 1 :: rest =>
      simp [parseValue] at h ⊢
      exact ⟨h.1, by rw [h.2]⟩
    | (x + 2) :: rest => simp [parseValue] at h
  | u8 =>
    intro b v r ext h
    match b with
    | [] => simp [parseValue] at h
    | x :: rest =>
      simp [parseValue] at h ⊢
      exact ⟨h.1, by rw [h.2]⟩
  | u64 =>
    intro b v r ext h
    simp only [parseValue, Option.map_eq_some'] at h ⊢
    obtain ⟨⟨n, r0⟩, hp, heq⟩ := h
    simp at heq
    exact ⟨(n, r0 ++ ext), parseNatLE_ext 8 b n r0 ext hp, by simp [← heq.1, heq.2]⟩
  | u128 =>
    intro b v r ext h
    simp only [parseValue, Option.map_eq_some'] at h ⊢
    obtain ⟨⟨n, r0⟩, hp, heq⟩ := h
    simp at heq
    exact ⟨(n, r0 ++ ext), parseNatLE_ext 16 b n r0 ext hp, by simp [← heq.1, heq.2]⟩
  | address =>
    intro b v r ext h
    simp only [parseValue, Option.map_eq_some'] at h ⊢
    obtain ⟨⟨n, r0⟩, hp, heq⟩ := h
    simp at heq
    exact ⟨(n, r0 ++ ext), parseNatLE_ext 16 b n r0 ext hp, by simp [← heq.1, heq.2]⟩
  | signer =>
    intro b v r ext h
    simp only [parseValue, Option.map_eq_some'] at h ⊢
    obtain ⟨⟨n, r0⟩, hp, heq⟩ := h
    simp at heq
    exact ⟨(n, r0 ++ ext), parseNatLE_ext 16 b n r0 ext hp, by simp [← heq.1, heq.2]⟩
  | vector l' =>
    intro b v r ext h
    simp only [parseValue] at h ⊢
    cases hu : readUleb b with
    | none => rw [hu] at h; simp at h
    | some q =>
      obtain ⟨n, r0⟩ := q
      rw [hu] at h
      dsimp only at h
      cases hrep : parseRep (parseValue l') n r0 with
      | none => rw [hrep] at h; simp at h
      | some q2 =>
        obtain ⟨vs, r2⟩ := q2
        rw [hrep] at h
        simp at h
        rw [readUleb_ext b n r0 ext hu]
        dsimp only
        rw [parseRep_ext (parseValue l') (parseValue_ext l') n r0 vs r2 ext hrep]
        simp [← h.1, h.2]
  | struct_ s =>
    intro b v r ext h
    simp only [parseValue] at h ⊢
    cases hs : parseStruct s b with
    | none => rw [hs] at h; simp at h
    | some q =>
      obtain ⟨sv, r0⟩ := q
      rw [hs] at h
      simp at h
      rw [parseStruct_ext s b sv r0 ext hs]
      simp [← h.1, h.2]
termination_by sizeOf l

theorem parseStruct_ext (s : MoveStructLayout) :
    ∀ b v r ext, parseStruct s b = some (v, r) →
      parseStruct s (b ++ ext) = some (v, r ++ ext) := by
  cases s with
  | runtime fs =>
    intro b v r ext h
    simp only [parseStruct] at h ⊢
    cases hs : parseValueSeq fs b with
    | none => rw [hs] at h; simp at h
    | some q =>
      obtain ⟨vs, r0⟩ := q
      rw [hs] at h
      simp at h
      rw [parseValueSeq_ext fs b vs r0 ext hs]
      simp [← h.1, h.2]
  | withFields fs =>
    intro b v r ext h
    simp only [parseStruct] at h ⊢
    cases hs : parseFieldSeq fs b with
    | none => rw [hs] at h; simp at h
    | some q =>
      obtain ⟨vs, r0⟩ := q
      rw [hs] at h
      simp at h
      rw [parseFieldSeq_ext fs b vs r0 ext hs]
      simp [← h.1, h.2]
  | withTypes t fs =>
    intro b v r ext h
    simp only [parseStruct] at h ⊢
    cases hs : parseFieldSeq fs b with
    | none => rw [hs] at h; simp at h
    | some q =>
      obtain ⟨vs, r0⟩ := q
      rw [hs] at h
      simp at h
      rw [parseFieldSeq_ext fs b vs r0 ext hs]
      simp [← h.1, h.2]
termination_by sizeOf s

theorem parseValueSeq_ext (ls : List MoveTypeLayout) :
    ∀ b vs r ext, parseValueSeq ls b = some (vs, r) →
      parseValueSeq ls (b ++ ext) = some (vs, r ++ ext) := by
  cases ls with
  | nil =>
    intro b vs r ext h
    simp [parseValueSeq] at h ⊢
    exact ⟨h.1, by rw [h.2]⟩
  | cons l ls' =>
    intro b vs r ext h
    simp only [parseValueSeq] at h ⊢
    cases hv : parseValue l b with
    | none => rw [hv] at h; simp at h
    | some q =>
      obtain ⟨v, r0⟩ := q
      rw [hv] at h
      dsimp only at h
      cases hrec : parseValueSeq ls' r0 with
      | none => rw [hrec] at h; simp at h
      | some q2 =>
        obtain ⟨vs0, r2⟩ := q2
        rw [hrec] at h
        simp at h
        rw [parseValue_ext l b v r0 ext hv]
        dsimp only
        rw [parseValueSeq_ext ls' r0 vs0 r2 ext hrec]
        simp [← h.1, h.2]
termination_by sizeOf ls

theorem parseFieldSeq_ext (fs : List (String × MoveTypeLayout)) :
    ∀ b vs r ext, parseFieldSeq fs b = some (vs, r) →
      parseFieldSeq fs (b ++ ext) = some (vs, r ++ ext) := by
  cases fs with
  | nil =>
    intro b vs r ext h
    simp [parseFieldSeq] at h ⊢
    exact ⟨h.1, by rw [h.2]⟩
  | cons f fs' =>
    obtain ⟨n, l⟩ := f
    intro b vs r ext h
    simp only [parseFieldSeq] at h ⊢
    cases hv : parseValue l b with
    | none => rw [hv] at h; simp at h
    | some q =>
      obtain ⟨v, r0⟩ := q
      rw [hv] at h
      dsimp only at h
      cases hrec : parseFieldSeq fs' r0 with
      | none => rw [hrec] at h; simp at h
      | some q2 =>
        obtain ⟨vs0, r2⟩ := q2
        rw [hrec] at h
        simp at h
        rw [parseValue_ext l b v r0 ext hv]
        dsimp only
        rw [parseFieldSeq_ext fs' r0 vs0 r2 ext hrec]
        simp [← h.1, h.2]
termination_by sizeOf fs
end

mutual
theorem serialize_parseValue (v : MoveValue) :
    ∀ l, confValue v l → ∀ ext,
      parseValue l (serializeValue v ++ ext) = some (v, ext) := by
  cases v with
  | u8 n =>
    intro l hc ext
    match l with
    | .u8 => simp [serializeValue, parseValue]
    | .bool | .u64 | .u128 | .address | .signer | .vector _ | .struct_ _ =>
      simp [confValue] at hc
  | u64 n =>
    intro l hc ext
    match l with
    | .u64 =>
      simp only [confValue] at hc
      have hlt : n < 256 ^ 8 := by
        rw [show (256 : Nat) ^ 8 = 2 ^ 64 by norm_num]
        exact hc
      simp only [serializeValue, parseValue]
      rw [parseNatLE_natLE 8 n ext hlt]
      rfl
    | .bool | .u8 | .u128 | .address | .signer | .vector _ | .struct_ _ =>
      simp [confValue] at hc
  | u128 n =>
    intro l hc ext
    match l with
    | .u128 =>
      simp only [confValue] at hc
      have hlt : n < 256 ^ 16 := by
        rw [show (256 : Nat) ^ 16 = 2 ^ 128 by norm_num]
        exact hc
      simp only [serializeValue, parseValue]
      rw [parseNatLE_natLE 16 n ext hlt]
      rfl
    | .bool | .u8 | .u64 | .address | .signer | .vector _ | .struct_ _ =>
      simp [confValue] at hc
  | bool b =>
    intro l hc ext
    match l with
    | .bool => cases b <;> simp [serializeValue, parseValue]
    | .u8 | .u64 | .u128 | .address | .signer | .vector _ | .struct_ _ =>
      simp [confValue] at hc
  | address a =>
    intro l hc ext
    match l with
    | .address =>
      simp only [confValue] at hc
      have hlt : a < 256 ^ 16 := by
        rw [show (256 : Nat) ^ 16 = 2 ^ 128 by norm_num]
        exact hc
      simp only [serializeValue, parseValue]
      rw [parseNatLE_natLE 16 a ext hlt]
      rfl
    | .bool | .u8 | .u64 | .u128 | .signer | .vector _ | .struct_ _ =>
      simp [confValue] at hc
  | signer a =>
    intro l hc ext
    match l with
    | .signer =>
      simp only [confValue] at hc
      have hlt : a < 256 ^ 16 := by
        rw [show (256 : Nat) ^ 16 = 2 ^ 128 by norm_num]
        exact hc
      simp only [serializeValue, parseValue]
      rw [parseNatLE_natLE 16 a ext hlt]
      rfl
    | .bool | .u8 | .u64 | .u128 | .address | .vector _ | .struct_ _ =>
      simp [confValue] at hc
  | vector vs =>
    intro l hc ext
    match l with
    | .vector el =>
      simp only [confValue] at hc
      simp only [serializeValue, parseValue, List.append_assoc]
      rw [readUleb_ulebEncode vs.length (serializeValueList vs ++ ext)]
      dsimp only
      rw [serialize_parseVec vs el hc ext]
    | .bool | .u8 | .u64 | .u128 | .address | .signer | .struct_ _ =>
      simp [confValue] at hc
  | struct_ s =>
    intro l hc ext
    match l with
    | .struct_ sl =>
      simp only [confValue] at hc
      simp only [serializeValue, parseValue]
      rw [serialize_parseStruct s sl hc ext]
    | .bool | .u8 | .u64 | .u128 | .address | .signer | .vector _ =>
      simp [confValue] at hc
termination_by sizeOf v

theorem serialize_parseVec (vs : List MoveValue) :
    ∀ l, confValueList vs l → ∀ ext,
      parseRep (parseValue l) vs.length (serializeValueList vs ++ ext) =
        some (vs, ext) := by
  cases vs with
  | nil => intro l hc ext; simp [serializeValueList, parseRep]
  | cons v vs' =>
    intro l hc ext
    simp only [confValueList] at hc
    simp only [serializeValueList, List.append_assoc, List.length_cons, parseRep]
    rw [serialize_parseValue v l hc.1 (serializeValueList vs' ++ ext)]
    dsimp only
    rw [serialize_parseVec vs' l hc.2 ext]
termination_by sizeOf vs

theorem serialize_parseStruct (s : MoveStruct) :
    ∀ sl, confStruct s sl → ∀ ext,
      parseStruct sl (serializeStruct s ++ ext) = some (s, ext) := by
  cases s with
  | runtime vs =>
    intro sl hc ext
    match sl with
    | .runtime ls =>
      simp only [confStruct] at hc
      simp only [serializeStruct, parseStruct]
      rw [serialize_parseValueSeq vs ls hc ext]
    | .withFields _ | .withTypes _ _ => simp [confStruct] at hc
  | withFields fvs =>
    intro sl hc ext
    match sl with
    | .withFields fls =>
      simp only [confStruct] at hc
      simp only [serializeStruct, parseStruct]
      rw [serialize_parseFieldSeq fvs fls hc ext]
    | .runtime _ | .withTypes _ _ => simp [confStruct] at hc
  | withTypes t fvs =>
    intro sl hc ext
    match sl with
    | .withTypes t' fls =>
      simp only [confStruct] at hc
      obtain ⟨ht, hf⟩ := hc
      subst ht
      simp only [serializeStruct, parseStruct]
      rw [serialize_parseFieldSeq fvs fls hf ext]
    | .runtime _ | .withFields _ => simp [confStruct] at hc
termination_by sizeOf s

theorem serialize_parseValueSeq (vs : List MoveValue) :
    ∀ ls, confValueSeq vs ls → ∀ ext,
      parseValueSeq ls (serializeValueList vs ++ ext) = some (vs, ext) := by
  cases vs with
  | nil =>
    intro ls hc ext
    match ls with
    | [] => simp [serializeValueList, parseValueSeq]
    | _ :: _ => simp [confValueSeq] at hc
  | cons v vs' =>
    intro ls hc ext
    match ls with
    | [] => simp [confValueSeq] at hc
    | l :: ls' =>
      simp only [confValueSeq] at hc
      simp only [serializeValueList, List.append_assoc, parseValueSeq]
      rw [serialize_parseValue v l hc.1 (serializeValueList vs' ++ ext)]
      dsimp only
      rw [serialize_parseValueSeq vs' ls' hc.2 ext]
termination_by sizeOf vs

theorem serialize_parseFieldSeq (fvs : List (String × MoveValue)) :
    ∀ fls, confFieldSeq fvs fls → ∀ ext,
      parseFieldSeq fls (serializeFieldList fvs ++ ext) = some (fvs, ext) := by
  cases fvs with
  | nil =>
    intro fls hc ext
    match fls with
    | [] => simp [serializeFieldList, parseFieldSeq]
    | _ :: _ => simp [confFieldSeq] at hc
  | cons fv fvs' =>
    obtain ⟨fn, v⟩ := fv
    intro fls hc ext
    match fls with
    | [] => simp [confFieldSeq] at hc
    | (fn', l) :: fls' =>
      simp only [confFieldSeq] at hc
      obtain ⟨hn, hv, hrest⟩ := hc
      subst hn
      simp only [serializeFieldList, List.append_assoc, parseFieldSeq]
      rw [serialize_parseValue v l hv (serializeFieldList fvs' ++ ext)]
      dsimp only
      rw [serialize_parseFieldSeq fvs' fls' hrest ext]
termination_by sizeOf fvs
end

/-- Layout resolution produces mode-homogeneous layouts: FieldsAndTypes mode
yields a fully type-annotated tree, FieldsOnly mode a fully tag-free tree.
Proved by induction on the recursion-depth budget, which every recursive call
of the builder decreases. -/
theorem buildLayout_mode (fuel : Nat) :
    (∀ (wt : Bool) (resolver : GetModule) (t : TypeTag) (l : MoveTypeLayout),
        buildTypeLayout fuel wt resolver t = .ok l →
        (wt = true → typedLayout l) ∧ (wt = false → taglessLayout l)) ∧
    (∀ (wt : Bool) (resolver : GetModule) (tag : StructTag) (sl : MoveStructLayout),
        buildStructLayout fuel wt resolver tag = .ok sl →
        (wt = true → typedStructLayout sl) ∧ (wt = false → taglessStructLayout sl)) ∧
    (∀ (wt : Bool) (resolver : GetModule) (params : List TypeTag)
        (fs : List (String × SigTok)) (ls : List (String × MoveTypeLayout)),
        buildFieldLayouts fuel wt resolver params fs = .ok ls →
        (wt = true → typedFieldList ls) ∧ (wt = false → taglessFieldList ls)) := by
  induction fuel with
  | zero =>
    refine ⟨?_, ?_, ?_⟩
    · intro wt resolver t l h
      cases t <;> simp [buildTypeLayout] at h <;>
        simp [← h, typedLayout, taglessLayout]
    · intro wt resolver tag sl h
      simp only [buildStructLayout] at h
      cases hres : resolver tag.module_id with
      | none => rw [hres] at h; simp at h
      | some m =>
        rw [hres] at h
        dsimp only at h
        cases hfind : findStruct m.structs tag.name with
        | none => rw [hfind] at h; simp at h
        | some sd => rw [hfind] at h; simp at h
    · intro wt resolver params fs ls h
      cases fs with
      | nil =>
        simp [buildFieldLayouts] at h
        subst h
        simp [typedFieldList, taglessFieldList]
      | cons f rest =>
        obtain ⟨n, tok⟩ := f
        simp only [buildFieldLayouts] at h
        cases hsub : substSig params tok with
        | none => rw [hsub] at h; simp at h
        | some t => rw [hsub] at h; simp at h
  | succ f ih =>
    obtain ⟨ihT, ihS, ihF⟩ := ih
    refine ⟨?_, ?_, ?_⟩
    · intro wt resolver t l h
      cases t with
      | bool => simp [buildTypeLayout] at h; simp [← h, typedLayout, taglessLayout]
      | u8 => simp [buildTypeLayout] at h; simp [← h, typedLayout, taglessLayout]
      | u64 => simp [buildTypeLayout] at h; simp [← h, typedLayout, taglessLayout]
      | u128 => simp [buildTypeLayout] at h; simp [← h, typedLayout, taglessLayout]
      | address => simp [buildTypeLayout] at h; simp [← h, typedLayout, taglessLayout]
      | signer => simp [buildTypeLayout] at h; simp [← h, typedLayout, taglessLayout]
      | vector t' =>
        simp only [buildTypeLayout] at h
        cases hb : buildTypeLayout f wt resolver t' with
        | error e => rw [hb] at h; simp at h
        | ok l' =>
          rw [hb] at h
          simp at h
          have := ihT wt resolver t' l' hb
          constructor
          · intro hwt; rw [← h]; simp [typedLayout]; exact this.1 hwt
          · intro hwt; rw [← h]; simp [taglessLayout]; exact this.2 hwt
      | struct_ s =>
        simp only [buildTypeLayout] at h
        cases hb : buildStructLayout f wt resolver s with
        | error e => rw [hb] at h; simp at h
        | ok sl =>
          rw [hb] at h
          simp at h
          have := ihS wt resolver s sl hb
          constructor
          · intro hwt; rw [← h]; simp [typedLayout]; exact this.1 hwt
          · intro hwt; rw [← h]; simp [taglessLayout]; exact this.2 hwt
    · intro wt resolver tag sl h
      simp only [buildStructLayout] at h
      cases hres : resolver tag.module_id with
      | none => rw [hres] at h; simp at h
      | some m =>
        rw [hres] at h
        dsimp only at h
        cases hfind : findStruct m.structs tag.name with
        | none => rw [hfind] at h; simp at h
        | some sd =>
          rw [hfind] at h
          dsimp only at h
          cases hb : buildFieldLayouts f wt resolver tag.type_params sd.fields with
          | error e => rw [hb] at h; simp at h
          | ok fls =>
            rw [hb] at h
            simp at h
            have := ihF wt resolver tag.type_params sd.fields fls hb
            constructor
            · intro hwt
              subst hwt
              simp at h
              rw [← h]
              simp [typedStructLayout]
              exact this.1 rfl
            · intro hwt
              subst hwt
              simp at h
              rw [← h]
              simp [taglessStructLayout]
              exact this.2 rfl
    · intro wt resolver params fs ls h
      cases fs with
      | nil =>
        simp [buildFieldLayouts] at h
        subst h
        simp [typedFieldList, taglessFieldList]
      | cons fd rest =>
        obtain ⟨n, tok⟩ := fd
        simp only [buildFieldLayouts] at h
        cases hsub : substSig params tok with
        | none => rw [hsub] at h; simp at h
        | some t =>
          rw [hsub] at h
          dsimp only at h
          cases hb : buildTypeLayout f wt resolver t with
          | error e => rw [hb] at h; simp at h
          | ok l =>
            rw [hb] at h
            dsimp only at h
            cases hrest : buildFieldLayouts f wt resolver params rest with
            | error e => rw [hrest] at h; simp at h
            | ok ls' =>
              rw [hrest] at h
              simp at h
              have h1 := ihT wt resolver t l hb
              have h2 := ihF wt resolver params rest ls' hrest
              constructor
              · intro hwt
                rw [← h]
                simp [typedFieldList]
                exact ⟨h1.1 hwt, h2.1 hwt⟩
              · intro hwt
                rw [← h]
                simp [taglessFieldList]
                exact ⟨h1.2 hwt, h2.2 hwt⟩

/-- Building a layout for a struct type tag, when it succeeds, always yields a
struct layout: the `unreachable!` branch of `get_layout` and
`extract_move_struct` is indeed unreachable. -/
theorem buildTypeLayout_struct_shape (fuel : Nat) (wt : Bool)
    (resolver : GetModule) (s : StructTag) (l : MoveTypeLayout)
    (h : buildTypeLayout fuel wt resolver (.struct_ s) = .ok l) :
    ∃ sl, l = .struct_ sl := by
  cases fuel with
  | zero => simp [buildTypeLayout] at h
  | succ f =>
    simp only [buildTypeLayout] at h
    cases hb : buildStructLayout f wt resolver s with
    | error e => rw [hb] at h; simp at h
    | ok sl =>
      rw [hb] at h
      simp at h
      exact ⟨sl, h.symm⟩

/-- Resolution via `get_layout` succeeds with `L` exactly when the underlying layout builder,
run in the mode selected by `include_types`, returns the struct layout `L`. -/
theorem get_layout_ok_iff (me : MoveEvent) (fmt : ObjectFormatOptions)
    (resolver : GetModule) (fuel : Nat) (L : MoveStructLayout) :
    me.get_layout fmt resolver fuel = .ok L ↔
      buildTypeLayout fuel fmt.include_types resolver (.struct_ me.type_) =
        .ok (.struct_ L) := by
  unfold MoveEvent.get_layout TypeLayoutBuilder.build_with_types
    TypeLayoutBuilder.build_with_fields
  cases hfmt : fmt.include_types with
  | true =>
    simp only [if_true]
    cases hb : buildTypeLayout fuel true resolver (.struct_ me.type_) with
    | error e => simp
    | ok l =>
      obtain ⟨sl, rfl⟩ := buildTypeLayout_struct_shape fuel true resolver _ l hb
      simp
  | false =>
    simp only [Bool.false_eq_true, if_false]
    cases hb : buildTypeLayout fuel false resolver (.struct_ me.type_) with
    | error e => simp
    | ok l =>
      obtain ⟨sl, rfl⟩ := buildTypeLayout_struct_shape fuel false resolver _ l hb
      simp

/-- Every error returned by `get_layout` is the rendering of a layout
resolution failure (in particular, never the `unreachable!` panic). -/
theorem get_layout_error_shape (me : MoveEvent) (fmt : ObjectFormatOptions)
    (resolver : GetModule) (fuel : Nat) (e : SuiError)
    (h : me.get_layout fmt resolver fuel = .error e) :
    ∃ le : LayoutError, e = .objectSerializationError le.render := by
  unfold MoveEvent.get_layout TypeLayoutBuilder.build_with_types
    TypeLayoutBuilder.build_with_fields at h
  cases hfmt : fmt.include_types with
  | true =>
    rw [hfmt] at h
    simp only [if_true] at h
    cases hb : buildTypeLayout fuel true resolver (.struct_ me.type_) with
    | error le =>
      rw [hb] at h
      simp at h
      exact ⟨le, h.symm⟩
    | ok l =>
      obtain ⟨sl, rfl⟩ := buildTypeLayout_struct_shape fuel true resolver _ l hb
      rw [hb] at h
      simp at h
  | false =>
    rw [hfmt] at h
    simp only [Bool.false_eq_true, if_false] at h
    cases hb : buildTypeLayout fuel false resolver (.struct_ me.type_) with
    | error le =>
      rw [hb] at h
      simp at h
      exact ⟨le, h.symm⟩
    | ok l =>
      obtain ⟨sl, rfl⟩ := buildTypeLayout_struct_shape fuel false resolver _ l hb
      rw [hb] at h
      simp at h

/-- The spec's concrete scenario: the tag `coin::Coin<u64>`. -/
def coinTag : StructTag := .mk 2 "coin" "Coin" [.u64]

/-- A one-struct module defining `Coin<T>` with a single field `value : T`. -/
def coinModule : CompiledModule := ⟨[("Coin", ⟨[("value", .typeParam 0)]⟩)]⟩

/-- A resolver exposing exactly the `coin` module. -/
def coinResolver : GetModule :=
  fun m => if m = ⟨2, "coin"⟩ then some coinModule else none

/-- A Move event carrying `Coin<u64> with value 42` encoded as 8 LE bytes. -/
def coinEvent : MoveEvent := ⟨coinTag, [42, 0, 0, 0, 0, 0, 0, 0]⟩

/-- The decoded FieldsOnly form of `coinEvent`. -/
def coinValue : MoveStruct := .withFields [("value", .u64 42)]

/-- The FieldsOnly layout of `coin::Coin<u64>`. -/
def coinLayout : MoveStructLayout := .withFields [("value", .u64)]

/-- Claim C1: for every well-formed `(StructTag, contents)` pair obtained by
encoding a structured value under the layout resolved for that tag,
`to_move_struct_with_resolver` reconstructs a value tree equal to the
original value. -/
theorem C1_decode_with_resolver_roundtrip (me : MoveEvent)
    (fmt : ObjectFormatOptions) (resolver : GetModule) (fuel : Nat)
    (L : MoveStructLayout) (s : MoveStruct)
    (hlay : me.get_layout fmt resolver fuel = .ok L)
    (hconf : confStruct s L)
    (henc : me.contents = serializeStruct s) :
    me.to_move_struct_with_resolver fmt resolver fuel = .ok s := by
  unfold MoveEvent.to_move_struct_with_resolver
  rw [hlay]
  dsimp only
  unfold MoveEvent.to_move_struct MoveStruct.simple_deserialize
  rw [henc]
  have hrt := serialize_parseStruct s L hconf []
  rw [List.append_nil] at hrt
  rw [hrt]

/-- Witness for C1: the spec's `coin::Coin<u64> with value 42` scenario. -/
theorem C1_decode_with_resolver_roundtrip_witness :
    coinEvent.get_layout ⟨false⟩ coinResolver 3 = .ok coinLayout ∧
    confStruct coinValue coinLayout ∧
    coinEvent.contents = serializeStruct coinValue ∧
    coinEvent.to_move_struct_with_resolver ⟨false⟩ coinResolver 3 = .ok coinValue := by
  refine ⟨rfl, ?_, rfl, ?_⟩
  · simp [coinValue, coinLayout, confStruct, confFieldSeq, confValue]
  · exact C1_decode_with_resolver_roundtrip coinEvent ⟨false⟩ coinResolver 3
      coinLayout coinValue rfl
      (by simp [coinValue, coinLayout, confStruct, confFieldSeq, confValue]) rfl

/-- Claim C2: `to_move_struct_with_resolver` is exactly `get_layout` followed
by `to_move_struct`, failing with the error of whichever sub-step fails. -/
theorem C2_with_resolver_is_composition (me : MoveEvent)
    (fmt : ObjectFormatOptions) (resolver : GetModule) (fuel : Nat) :
    me.to_move_struct_with_resolver fmt resolver fuel =
      (me.get_layout fmt resolver fuel).bind (fun l => me.to_move_struct l) ∧
    (∀ e, me.get_layout fmt resolver fuel = .error e →
      me.to_move_struct_with_resolver fmt resolver fuel = .error e) ∧
    (∀ L, me.get_layout fmt resolver fuel = .ok L →
      me.to_move_struct_with_resolver fmt resolver fuel = me.to_move_struct L) := by
  refine ⟨?_, ?_, ?_⟩
  · unfold MoveEvent.to_move_struct_with_resolver
    cases h : me.get_layout fmt resolver fuel <;> simp [Except.bind]
  · intro e he
    unfold MoveEvent.to_move_struct_with_resolver
    rw [he]
  · intro L hL
    unfold MoveEvent.to_move_struct_with_resolver
    rw [hL]

/-- Witness for C2: composition observed on a failing resolution (empty
resolver) and on a successful one (the coin scenario). -/
theorem C2_with_resolver_is_composition_witness :
    coinEvent.to_move_struct_with_resolver ⟨false⟩ (fun _ => none) 1 =
      .error (.objectSerializationError
        (LayoutError.render (.moduleNotFound ⟨2, "coin"⟩))) ∧
    coinEvent.to_move_struct_with_resolver ⟨false⟩ coinResolver 3 =
      coinEvent.to_move_struct coinLayout := by
  constructor
  · exact (C2_with_resolver_is_composition coinEvent ⟨false⟩ (fun _ => none) 1).2.1 _ rfl
  · exact (C2_with_resolver_is_composition coinEvent ⟨false⟩ coinResolver 3).2.2 coinLayout rfl

/-- Claim C3: `object_id` returns an identifier exactly for `Publish` (the
package id), `TransferObject` (the transferred object), `DeleteObject` and
`NewObject`, and `none` for every other variant. -/
theorem C3_object_id_exactly_four_variants :
    (∀ p, (Event.Publish p).object_id = some p) ∧
    (∀ o v d t, (Event.TransferObject o v d t).object_id = some o) ∧
    (∀ o, (Event.DeleteObject o).object_id = some o) ∧
    (∀ o, (Event.NewObject o).object_id = some o) ∧
    (∀ m, (Event.MoveEvent m).object_id = none) ∧
    (∀ i, (Event.EpochChange i).object_id = none) ∧
    (∀ c, (Event.Checkpoint c).object_id = none) :=
  ⟨fun _ => rfl, fun _ _ _ _ => rfl, fun _ => rfl, fun _ => rfl,
   fun _ => rfl, fun _ => rfl, fun _ => rfl⟩

/-- Claim C4: `module_id` returns the module component of the `MoveEvent`'s
type tag, and `none` for every other variant. -/
theorem C4_module_id_only_move_events :
    (∀ m, (Event.MoveEvent m).module_id = some m.type_.module_id) ∧
    (∀ p, (Event.Publish p).module_id = none) ∧
    (∀ o v d t, (Event.TransferObject o v d t).module_id = none) ∧
    (∀ o, (Event.DeleteObject o).module_id = none) ∧
    (∀ o, (Event.NewObject o).module_id = none) ∧
    (∀ i, (Event.EpochChange i).module_id = none) ∧
    (∀ c, (Event.Checkpoint c).module_id = none) :=
  ⟨fun _ => rfl, fun _ => rfl, fun _ _ _ _ => rfl, fun _ => rfl,
   fun _ => rfl, fun _ => rfl, fun _ => rfl⟩

/-- Claim C5: with `include_types = true` the resolved layout retains a
`StructTag` at every struct node; with `include_types = false` it exposes
none; and `include_types` is the only option that affects resolution. -/
theorem C5_layout_mode_selection (me : MoveEvent) (fmt : ObjectFormatOptions)
    (resolver : GetModule) (fuel : Nat) (L : MoveStructLayout)
    (h : me.get_layout fmt resolver fuel = .ok L) :
    (fmt.include_types = true → typedStructLayout L) ∧
    (fmt.include_types = false → taglessStructLayout L) ∧
    (∀ fmt' : ObjectFormatOptions, fmt'.include_types = fmt.include_types →
      me.get_layout fmt' resolver fuel = me.get_layout fmt resolver fuel) := by
  have hb := (get_layout_ok_iff me fmt resolver fuel L).mp h
  have hm := (buildLayout_mode fuel).1 fmt.include_types resolver
    (.struct_ me.type_) (.struct_ L) hb
  refine ⟨?_, ?_, ?_⟩
  · intro hwt
    have := hm.1 hwt
    simpa [typedLayout] using this
  · intro hwt
    have := hm.2 hwt
    simpa [taglessLayout] using this
  · intro fmt' hfmt
    have : fmt' = fmt := by
      cases fmt; cases fmt'
      simp at hfmt
      simp [hfmt]
    rw [this]

/-- Witness for C5: the coin scenario resolved in both modes. -/
theorem C5_layout_mode_selection_witness :
    coinEvent.get_layout ⟨true⟩ coinResolver 3 =
      .ok (.withTypes coinTag [("value", .u64)]) ∧
    typedStructLayout (.withTypes coinTag [("value", .u64)]) ∧
    coinEvent.get_layout ⟨false⟩ coinResolver 3 = .ok coinLayout ∧
    taglessStructLayout coinLayout := by
  refine ⟨rfl, ?_, rfl, ?_⟩
  · exact (C5_layout_mode_selection coinEvent ⟨true⟩ coinResolver 3
      (.withTypes coinTag [("value", .u64)]) rfl).1 rfl
  · exact ((C5_layout_mode_selection coinEvent ⟨false⟩ coinResolver 3
      coinLayout rfl).2).1 rfl

/-- Claim C6: when the resolver reports the tag's defining module as absent,
`get_layout` fails with the module-resolution error and produces no layout. -/
theorem C6_module_absent_resolution_error (me : MoveEvent)
    (fmt : ObjectFormatOptions) (resolver : GetModule) (fuel : Nat)
    (habs : resolver me.type_.module_id = none) (hfuel : 0 < fuel) :
    me.get_layout fmt resolver fuel =
      .error (.objectSerializationError
        (LayoutError.render (.moduleNotFound me.type_.module_id))) := by
  obtain ⟨f, rfl⟩ : ∃ f, fuel = f + 1 := ⟨fuel - 1, by omega⟩
  have hbuild : ∀ wt, buildTypeLayout (f + 1) wt resolver (.struct_ me.type_) =
      .error (.moduleNotFound me.type_.module_id) := by
    intro wt
    simp only [buildTypeLayout, buildStructLayout, habs]
  unfold MoveEvent.get_layout TypeLayoutBuilder.build_with_types
    TypeLayoutBuilder.build_with_fields
  cases hfmt : fmt.include_types <;> simp [hbuild]

/-- Witness for C6: the coin event against an empty resolver. -/
theorem C6_module_absent_resolution_error_witness :
    coinEvent.get_layout ⟨true⟩ (fun _ => none) 1 =
      .error (.objectSerializationError
        (LayoutError.render (.moduleNotFound ⟨2, "coin"⟩))) :=
  C6_module_absent_resolution_error coinEvent ⟨true⟩ (fun _ => none) 1 rfl
    (by decide)

/-- Claim C7: truncating a validly-encoded payload by at least one byte makes
`to_move_struct` fail with a decode error; it never returns a partial
struct. -/
theorem C7_truncation_fails (me : MoveEvent) (L : MoveStructLayout)
    (s : MoveStruct) (k : Nat)
    (hconf : confStruct s L)
    (henc : me.contents = (serializeStruct s).take k)
    (hk : k < (serializeStruct s).length) :
    ∃ msg, me.to_move_struct L = .error (.objectSerializationError msg) := by
  have hfull : parseStruct L (serializeStruct s) = some (s, []) := by
    have hrt := serialize_parseStruct s L hconf []
    rw [List.append_nil] at hrt
    exact hrt
  suffices hsuff : ∃ msg,
      MoveStruct.simple_deserialize ((serializeStruct s).take k) L = .error msg by
    obtain ⟨msg, hmsg⟩ := hsuff
    refine ⟨msg, ?_⟩
    unfold MoveEvent.to_move_struct
    rw [henc, hmsg]
  have hsplit : (serializeStruct s).take k ++ (serializeStruct s).drop k =
      serializeStruct s := List.take_append_drop k _
  have hd : (serializeStruct s).drop k ≠ [] := by
    intro h0
    have := List.length_drop k (serializeStruct s)
    rw [h0] at this
    simp at this
    omega
  unfold MoveStruct.simple_deserialize
  cases hp : parseStruct L ((serializeStruct s).take k) with
  | none => exact ⟨"invalid or truncated input", rfl⟩
  | some q =>
    obtain ⟨w, r⟩ := q
    cases r with
    | nil =>
      exfalso
      have hext := parseStruct_ext L ((serializeStruct s).take k) w []
        ((serializeStruct s).drop k) hp
      rw [hsplit] at hext
      rw [hfull] at hext
      simp at hext
      obtain ⟨hw, hlen⟩ := hext
      omega
    | cons x xs => exact ⟨"remaining input after deserialization", rfl⟩

/-- Witness for C7: the coin payload truncated to its first 7 bytes. -/
theorem C7_truncation_fails_witness :
    ∃ msg, (MoveEvent.mk coinTag [42, 0, 0, 0, 0, 0, 0]).to_move_struct coinLayout =
      .error (.objectSerializationError msg) :=
  C7_truncation_fails ⟨coinTag, [42, 0, 0, 0, 0, 0, 0]⟩ coinLayout coinValue 7
    (by simp [coinValue, coinLayout, confStruct, confFieldSeq, confValue])
    (by simp [coinValue]; rfl)
    (by simp [coinValue]; decide)

/-- Claim C8: every failure of layout resolution and of decoding surfaces as
the single `ObjectSerializationError` kind with a human-readable cause
string (never the `unreachable!` panic, never a substituted default). -/
theorem C8_uniform_serialization_errors (me : MoveEvent)
    (fmt : ObjectFormatOptions) (resolver : GetModule) (fuel : Nat)
    (L : MoveStructLayout) :
    (∀ e, me.get_layout fmt resolver fuel = .error e →
      ∃ msg, e = .objectSerializationError msg) ∧
    (∀ e, me.to_move_struct L = .error e →
      ∃ msg, e = .objectSerializationError msg) := by
  constructor
  · intro e he
    obtain ⟨le, hle⟩ := get_layout_error_shape me fmt resolver fuel e he
    exact ⟨le.render, hle⟩
  · intro e he
    unfold MoveEvent.to_move_struct at he
    cases hd : MoveStruct.simple_deserialize me.contents L with
    | error msg =>
      rw [hd] at he
      simp at he
      exact ⟨msg, he.symm⟩
    | ok s => rw [hd] at he; simp at he

/-- Witness for C8: a failing resolution (empty resolver) and a failing
decode (empty contents against the coin layout). -/
theorem C8_uniform_serialization_errors_witness :
    (∃ msg, SuiError.objectSerializationError
        (LayoutError.render (.moduleNotFound ⟨2, "coin"⟩)) =
      .objectSerializationError msg) ∧
    (∃ msg, SuiError.objectSerializationError "invalid or truncated input" =
      .objectSerializationError msg) := by
  constructor
  · exact (C8_uniform_serialization_errors coinEvent ⟨true⟩ (fun _ => none) 1
      coinLayout).1 _ rfl
  · exact (C8_uniform_serialization_errors (MoveEvent.mk coinTag []) ⟨true⟩
      (fun _ => none) 1 coinLayout).2 _ rfl

/-- Claim C9: the envelope's `event_type` delegates to the contained event
and is a stable tag of the variant alone, independent of payloads and of the
envelope's metadata. -/
theorem C9_envelope_event_type_stable :
    (∀ env : EventEnvelope, env.event_type = env.event.variant_name) ∧
    (∀ env1 env2 : EventEnvelope,
      env1.event.event_type = env2.event.event_type →
      env1.event_type = env2.event_type) := by
  constructor
  · intro env; rfl
  · intro env1 env2 h
    show env1.event.variant_name = env2.event.variant_name
    cases he1 : env1.event <;> cases he2 : env2.event <;>
      first
        | rfl
        | (rw [he1, he2] at h
           simp [Event.event_type, Event.toEventType] at h)

/-- Witness for C9: two envelopes around the same variant with different
payloads, timestamps, digests and rendered values carry the same tag. -/
theorem C9_envelope_event_type_stable_witness :
    (EventEnvelope.new 1 none (.DeleteObject 5) none).event_type =
      (EventEnvelope.new 2 (some 9) (.DeleteObject 7) (some "x")).event_type :=
  C9_envelope_event_type_stable.2
    (EventEnvelope.new 1 none (.DeleteObject 5) none)
    (EventEnvelope.new 2 (some 9) (.DeleteObject 7) (some "x")) rfl

/-- Claim C10: for every non-Move event and every resolver,
`extract_move_struct` returns `Ok(None)`: it never errs, never consults the
resolver, and only the `MoveEvent` variant can yield a struct or an error. -/
theorem C10_extract_non_move_returns_none :
    ∀ (resolver : GetModule) (fuel : Nat),
      (∀ p, (Event.Publish p).extract_move_struct resolver fuel = .ok none) ∧
      (∀ o v d t, (Event.TransferObject o v d t).extract_move_struct resolver fuel = .ok none) ∧
      (∀ o, (Event.DeleteObject o).extract_move_struct resolver fuel = .ok none) ∧
      (∀ o, (Event.NewObject o).extract_move_struct resolver fuel = .ok none) ∧
      (∀ i, (Event.EpochChange i).extract_move_struct resolver fuel = .ok none) ∧
      (∀ c, (Event.Checkpoint c).extract_move_struct resolver fuel = .ok none) :=
  fun _ _ =>
    ⟨fun _ => rfl, fun _ _ _ _ => rfl, fun _ => rfl, fun _ => rfl,
     fun _ => rfl, fun _ => rfl⟩
